import Mathlib

/-!
Shallow embedding of src/src/compiler/translator/gen_builtin_symbols.py
(the built-in symbol table generator) and proofs about the claims of its
specification.  Python dictionaries with optional keys are modelled as
structures with Option fields; Python exceptions are modelled with
Except over the error taxonomy GenError; Python string operations are
re-implemented structurally over the underlying character lists so that
every definition evaluates by kernel reduction.
-/

/-- Error taxonomy of the generator.  Each constructor corresponds to one of
the `raise Exception(...)` sites of gen_builtin_symbols.py (plus the Python
IndexError and KeyError that the code can hit); message payloads keep the
data the Python messages interpolate. -/
inductive GenError where
  | structuralMismatch (expected got : String)
  | unexpectedInput (line : String)
  | unrecognizedType (token : String)
  | conflictingGenerics (tags : List String)
  | unexpectedGenTypeValue (g : String)
  | unexpectedSecondarySize
  | unexpectedLevel (level : String)
  | keyError (key : String)
  | indexError
deriving DecidableEq, Repr

/- ---------------------------------------------------------------------
Python string primitives, re-implemented structurally over List Char.
--------------------------------------------------------------------- -/

/-- Whitespace characters recognised by the Python str.strip default. -/
def isPySpace (c : Char) : Bool :=
  c == ' ' || c == '\t' || c == '\n' || c == '\r' || c == '\x0b' || c == '\x0c'

/-- str.strip on a character list. -/
def trimList (l : List Char) : List Char :=
  ((l.dropWhile isPySpace).reverse.dropWhile isPySpace).reverse

/-- Python str.strip. -/
def pyStrip (s : String) : String := String.mk (trimList s.data)

/-- Python slicing s[n:]. -/
def pyDrop (s : String) (n : Nat) : String := String.mk (s.data.drop n)

/-- Python str.startswith. -/
def pyStartsWith (s p : String) : Bool := p.data.isPrefixOf s.data

/-- Split a character list at the first occurrence of a character; none if
the character does not occur. -/
def splitAtFirst (c : Char) : List Char → Option (List Char × List Char)
  | [] => none
  | x :: xs =>
    if x = c then some ([], xs)
    else
      match splitAtFirst c xs with
      | none => none
      | some (a, b) => some (x :: a, b)

/-- Python s.split(sep, 1) for a single-space separator: the part before the
first space, and the untouched remainder when a space occurs. -/
def splitOnce (s : String) : String × Option String :=
  match splitAtFirst ' ' s.data with
  | none => (s, none)
  | some (a, b) => (String.mk a, some (String.mk b))

/-- Python s.split(sep) for the two-character separator used on
parameter lists (a comma followed by a space). -/
def splitCommaSpace : List Char → List (List Char)
  | [] => [[]]
  | ',' :: ' ' :: rest => [] :: splitCommaSpace rest
  | c :: rest =>
    match splitCommaSpace rest with
    | [] => [[c]]
    | g :: gs => (c :: g) :: gs

/-- Concatenation of a list of strings, used to state the mangled-name
theorems. -/
def joinTokens : List String → String
  | [] => ""
  | t :: ts => t ++ joinTokens ts

/-- Separator-interposed join, used only to transcribe the wording of the
specification for the refinement comparison of the wire mangled name. -/
def sepJoin (sep : String) : List String → String
  | [] => ""
  | [t] => t
  | t :: ts => t ++ sep ++ sepJoin sep ts

/-- Association-list lookup (first match), modelling a Python dict read. -/
def lookupA {κ β : Type} [DecidableEq κ] : List (κ × β) → κ → Option β
  | [], _ => none
  | (k2, v) :: rest, k => if k2 = k then some v else lookupA rest k

/-- Association-list write with Python dict semantics: an existing key is
updated in place, a new key is appended at the end (OrderedDict order). -/
def updateAssoc {κ β : Type} [DecidableEq κ] : List (κ × β) → κ → β → List (κ × β)
  | [], k, v => [(k, v)]
  | (k2, v2) :: rest, k, v =>
    if k2 = k then (k, v) :: rest else (k2, v2) :: updateAssoc rest k v

/-- Pop of the last element of a list, modelling Python list indexing with
-1 followed by pop (the group stack discipline): returns the remaining
list and the popped element, or none on the empty list (IndexError). -/
def popLast {α : Type} : List α → Option (List α × α)
  | [] => none
  | [x] => some ([], x)
  | x :: xs =>
    match popLast xs with
    | none => none
    | some (r, t) => some (x :: r, t)

/- ---------------------------------------------------------------------
Type model (class TType, lines 207-350 of gen_builtin_symbols.py).
--------------------------------------------------------------------- -/

/-- The basic_mangled_names table (lines 132-172). -/
def basic_mangled_names : List (String × String) :=
  [("Float", "f"), ("Int", "i"), ("UInt", "u"), ("Bool", "b"),
   ("YuvCscStandardEXT", "y"),
   ("Sampler2D", "s2"), ("Sampler3D", "s3"), ("SamplerCube", "sC"),
   ("Sampler2DArray", "sA"), ("SamplerExternalOES", "sX"),
   ("SamplerExternal2DY2YEXT", "sY"), ("Sampler2DRect", "sR"),
   ("Sampler2DMS", "sM"),
   ("ISampler2D", "is2"), ("ISampler3D", "is3"), ("ISamplerCube", "isC"),
   ("ISampler2DArray", "isA"), ("ISampler2DMS", "isM"),
   ("USampler2D", "us2"), ("USampler3D", "us3"), ("USamplerCube", "usC"),
   ("USampler2DArray", "usA"), ("USampler2DMS", "usM"),
   ("Sampler2DShadow", "s2s"), ("SamplerCubeShadow", "sCs"),
   ("Sampler2DArrayShadow", "sAs"),
   ("Image2D", "I2"), ("IImage2D", "iI2"), ("UImage2D", "uI2"),
   ("Image3D", "I3"), ("IImage3D", "iI3"), ("UImage3D", "uI3"),
   ("Image2DArray", "IA"), ("IImage2DArray", "iIA"), ("UImage2DArray", "uIA"),
   ("ImageCube", "Ic"), ("IImageCube", "iIc"), ("UImageCube", "uIc"),
   ("AtomicCounter", "a")]

/-- The symbol table levels, in their fixed order (line 174). -/
def levels : List String :=
  ["ESSL3_1_BUILTINS", "ESSL3_BUILTINS", "ESSL1_BUILTINS", "COMMON_BUILTINS"]

/-- A TType data dictionary before TType.normalize: every key optional,
exactly as the Python dict built by parse_type may or may not carry each
key. -/
structure RawType where
  basic : Option String := none
  primarySize : Option Nat := none
  secondarySize : Option Nat := none
  precision : Option String := none
  qualifier : Option String := none
  genType : Option String := none
deriving DecidableEq, Repr

/-- A TType data dictionary after TType.normalize: primarySize,
secondarySize, precision and qualifier always present; basic may still be
absent (the gvec3/gvec4 placeholders); genType marks generic types. -/
structure TType where
  basic : Option String
  primarySize : Nat
  secondarySize : Nat
  precision : String
  qualifier : String
  genType : Option String
deriving DecidableEq, Repr

/-- TType.normalize (lines 215-227): defaults primarySize and
secondarySize to 1, precision to Undefined, qualifier to Global, and
raises when secondarySize is set without primarySize. -/
def TType.normalize (r : RawType) : Except GenError TType :=
  match r.primarySize with
  | none =>
    match r.secondarySize with
    | some _ => .error .unexpectedSecondarySize
    | none =>
      .ok ⟨r.basic, 1, 1, r.precision.getD "Undefined", r.qualifier.getD "Global", r.genType⟩
  | some p =>
    .ok ⟨r.basic, p, r.secondarySize.getD 1, r.precision.getD "Undefined",
         r.qualifier.getD "Global", r.genType⟩

/-- TType.is_vector (line 247). -/
def TType.is_vector (t : TType) : Bool :=
  decide (1 < t.primarySize) && decide (t.secondarySize = 1)

/-- TType.is_matrix (line 250). -/
def TType.is_matrix (t : TType) : Bool := decide (1 < t.secondarySize)

/-- TType.get_mangled_name (lines 233-245): matrices emit both sizes,
vectors of dimension > 1 emit the primary size, then the basic-kind code
from basic_mangled_names, then the caller-supplied separator appended at
the end of the token.  A missing basic key or a basic kind outside the
table is a Python KeyError, modelled as none. -/
def TType.get_mangled_name (t : TType) (separator : String) : Option String :=
  match t.basic with
  | none => none
  | some b =>
    match lookupA basic_mangled_names b with
    | none => none
    | some code =>
      some ((if t.is_matrix then toString t.primarySize ++ toString t.secondarySize
             else if 1 < t.primarySize then toString t.primarySize
             else "") ++ code ++ separator)

/-- Map of basic-type family prefixes used by
specific_sampler_or_image_type (line 257). -/
def prefixFamilyMap : List (String × String) :=
  [("", "Float"), ("I", "Int"), ("U", "UInt")]

/-- TType.specific_sampler_or_image_type (lines 253-264): specialises a
generic sampler/image placeholder for one basic-type family, leaving
non-generic types unchanged.  A placeholder without a basic kind (gvec3 /
gvec4) keeps its primary size and takes the scalar kind of the family; a
placeholder with a basic kind prepends the family prefix and becomes
scalar.  The rebuilt dictionary drops genType and qualifier. -/
def TType.specific_sampler_or_image_type (t : TType) (basicTypePfx : String) :
    Option TType :=
  if t.genType.isSome then
    match t.basic with
    | none =>
      match lookupA prefixFamilyMap basicTypePfx with
      | none => none
      | some b => some ⟨some b, t.primarySize, 1, "Undefined", "Global", none⟩
    | some b => some ⟨some (basicTypePfx ++ b), 1, 1, "Undefined", "Global", none⟩
  else some t

/-- TType.specific_type (lines 266-275): specialises a generic vector
placeholder to one dimension, copying basic kind, precision and qualifier
and dropping genType; non-generic types are returned unchanged.  A generic
type without a basic kind is a Python KeyError, modelled as none. -/
def TType.specific_type (t : TType) (vec_size : Nat) : Option TType :=
  if t.genType.isSome then
    match t.basic with
    | none => none
    | some b => some ⟨some b, vec_size, 1, t.precision, t.qualifier, none⟩
  else some t

/-- The basic_type_map of parse_type (lines 287-295). -/
def basic_type_map : List (String × String) :=
  [("float", "Float"), ("int", "Int"), ("uint", "UInt"), ("bool", "Bool"),
   ("void", "Void"), ("atomic_uint", "AtomicCounter"),
   ("yuvCscStandardEXT", "YuvCscStandardEXT")]

/-- The basic_type_prefix_map of parse_type (line 302). -/
def basic_type_prefix_map : List (String × String) :=
  [("", "Float"), ("i", "Int"), ("u", "UInt"), ("b", "Bool"), ("v", "Void")]

/-- Value of a decimal digit character. -/
def digitVal (c : Char) : Nat := c.toNat - 48

/-- Match against the vector pattern of parse_type (line 304), written as
a regular expression there: an optional i/u/b prefix, the literal vec, and
an optional size digit 2-4.  Returns the prefix and the optional size. -/
def vecMatch (l : List Char) : Option (String × Option Nat) :=
  let stripped :=
    match l with
    | c :: cs =>
      if c = 'i' ∨ c = 'u' ∨ c = 'b' then (String.mk [c], cs) else ("", l)
    | [] => ("", l)
  match stripped.2 with
  | ['v', 'e', 'c'] => some (stripped.1, none)
  | ['v', 'e', 'c', d] =>
    if d = '2' ∨ d = '3' ∨ d = '4' then some (stripped.1, some (digitVal d)) else none
  | _ => none

/-- Match against the matrix pattern of parse_type (line 316): mat then a
size digit 2-4 and optionally x and a second size digit.  The arm without
the x part corresponds to the Python length-4 check for square matrices. -/
def matMatch (l : List Char) : Option (Nat × Option Nat) :=
  match l with
  | ['m', 'a', 't', a] =>
    if a = '2' ∨ a = '3' ∨ a = '4' then some (digitVal a, none) else none
  | ['m', 'a', 't', a, 'x', b] =>
    if (a = '2' ∨ a = '3' ∨ a = '4') ∧ (b = '2' ∨ b = '3' ∨ b = '4') then
      some (digitVal a, some (digitVal b))
    else none
  | _ => none

/-- Match against the generic-scalar pattern of parse_type (line 329):
gen, an optional I/U/B prefix letter, then Type.  Returns the captured
prefix letter as a string. -/
def genMatch (l : List Char) : Option String :=
  match l with
  | ['g', 'e', 'n', 'T', 'y', 'p', 'e'] => some ""
  | ['g', 'e', 'n', c, 'T', 'y', 'p', 'e'] =>
    if c = 'I' ∨ c = 'U' ∨ c = 'B' then some (String.mk [c]) else none
  | _ => none

/-- Lower-casing of a string, character by character (Python str.lower on
the captured prefix of the generic-scalar pattern). -/
def lowerString (s : String) : String := String.mk (s.data.map Char.toLower)

/-- The non-recursive part of TType.parse_type (lines 287-350), applied
after the out / inout prefixes have been stripped: exact basic keywords,
the vector, matrix and generic-scalar patterns, sampler and
gsampler/gimage prefixes, the gvec4/gvec3 literals, and the
UnrecognizedTypeError fallback, checked in the source order. -/
def TType.parse_type_base (chars : List Char) : Except GenError RawType :=
  let s := String.mk chars
  match lookupA basic_type_map s with
  | some b => .ok { basic := some b }
  | none =>
    match vecMatch chars with
    | some (pfx, sizeOpt) =>
      match lookupA basic_type_prefix_map pfx with
      | none => .error (.keyError pfx)
      | some b =>
        match sizeOpt with
        | none => .ok { basic := some b, genType := some "vec" }
        | some d => .ok { basic := some b, primarySize := some d }
    | none =>
      match matMatch chars with
      | some (p, none) =>
        .ok { basic := some "Float", primarySize := some p, secondarySize := some p }
      | some (p, some sz) =>
        .ok { basic := some "Float", primarySize := some p, secondarySize := some sz }
      | none =>
        match genMatch chars with
        | some pfx =>
          match lookupA basic_type_prefix_map (lowerString pfx) with
          | none => .error (.keyError pfx)
          | some b => .ok { basic := some b, genType := some "yes" }
        | none =>
          if pyStartsWith s "sampler" then
            match chars with
            | c :: rest => .ok { basic := some (String.mk (c.toUpper :: rest)) }
            | [] => .error (.unrecognizedType s)
          else if pyStartsWith s "gsampler" || pyStartsWith s "gimage" then
            match chars with
            | _ :: c2 :: rest =>
              .ok { basic := some (String.mk (c2.toUpper :: rest)),
                    genType := some "sampler_or_image" }
            | _ => .error (.unrecognizedType s)
          else if s = "gvec4" then
            .ok { primarySize := some 4, genType := some "sampler_or_image" }
          else if s = "gvec3" then
            .ok { primarySize := some 3, genType := some "sampler_or_image" }
          else .error (.unrecognizedType s)

/-- TType.parse_type (lines 277-350): the out and inout prefixes strip,
recurse, and overwrite the qualifier of the result; everything else is
parse_type_base. -/
def TType.parse_type : List Char → Except GenError RawType
  | 'o' :: 'u' :: 't' :: ' ' :: rest =>
    match TType.parse_type rest with
    | .error e => .error e
    | .ok r => .ok { r with qualifier := some "Out" }
  | 'i' :: 'n' :: 'o' :: 'u' :: 't' :: ' ' :: rest =>
    match TType.parse_type rest with
    | .error e => .error e
    | .ok r => .ok { r with qualifier := some "InOut" }
  | chars => TType.parse_type_base chars

/-- The TType constructor on a string argument (lines 208-213): parse the
token, then normalize. -/
def mkTType (s : String) : Except GenError TType :=
  match TType.parse_type s.data with
  | .error e => .error e
  | .ok r => TType.normalize r

/- ---------------------------------------------------------------------
Identity and mangling engine (lines 457-524).
--------------------------------------------------------------------- -/

/-- hash32 (lines 457-466): FNV-1a with offset basis 0x811c9dc5 and prime
16777619 over the character codes, the product masked to 32 bits at each
step (the Python bitmask with 0xffffffff equals reduction mod 2^32 on
nonnegative values). -/
def hash32 (s : String) : Nat :=
  s.data.foldl (fun h c => ((h ^^^ c.toNat) * 16777619) % 4294967296) 0x811c9dc5

/-- Independent transcription of the FNV-1a algorithm as the specification
states it: structural recursion over the list of character codes, XOR the
byte then multiply by the prime modulo 2^32. -/
def fnv1a_spec : Nat → List Nat → Nat
  | h, [] => h
  | h, b :: bs => fnv1a_spec (((h ^^^ b) * 16777619) % 4294967296) bs

/-- The parameter-mangling accumulation loop shared by
get_function_mangled_name and get_unique_identifier_name: append the
mangled token of each parameter in order to the accumulator; a KeyError
inside get_mangled_name aborts (none). -/
def mangle_parameters (sep : String) (acc : String) : List TType → Option String
  | [] => some acc
  | p :: ps =>
    match p.get_mangled_name sep with
    | none => none
    | some tok => mangle_parameters sep (acc ++ tok) ps

/-- The list of per-parameter mangled tokens (each token carries its
trailing separator), used to state the mangled-name theorems. -/
def param_tokens (sep : String) : List TType → Option (List String)
  | [] => some []
  | p :: ps =>
    match p.get_mangled_name sep, param_tokens sep ps with
    | some t, some ts => some (t :: ts)
    | _, _ => none

/-- get_function_mangled_name (lines 501-505): the plain function name,
an opening parenthesis, then every parameter token (each token ends with
the default separator of get_mangled_name, a semicolon). -/
def get_function_mangled_name (function_name : String) (parameters : List TType) :
    Option String :=
  mangle_parameters ";" (function_name ++ "(") parameters

/-- get_unique_identifier_name (lines 507-511): the name (with suffix, as
passed by the caller), an underscore, then every parameter token with the
underscore separator (each token ends with an underscore). -/
def get_unique_identifier_name (function_name : String) (parameters : List TType) :
    Option String :=
  mangle_parameters "_" (function_name ++ "_") parameters

/-- The inner loop of get_variable_name_to_store_parameters (lines
516-524): per parameter, the o_ marker for an Out qualifier, the io_
marker for an InOut qualifier, then the underscore-terminated mangled
token. -/
def store_parameters_name (acc : String) : List TType → Option String
  | [] => some acc
  | p :: ps =>
    match p.get_mangled_name "_" with
    | none => none
    | some tok =>
      store_parameters_name
        (acc ++ (if p.qualifier = "Out" then "o_" else "")
             ++ (if p.qualifier = "InOut" then "io_" else "") ++ tok) ps

/-- get_variable_name_to_store_parameters (lines 513-524): the literal
token empty for a zero-parameter list, otherwise p_ followed by the
marker-prefixed parameter tokens. -/
def get_variable_name_to_store_parameters (parameters : List TType) : Option String :=
  if parameters.length = 0 then some "empty"
  else store_parameters_name "p_" parameters

/-- Transcription of the wording of the specification for the wire
mangled name (name plus suffix, the parameter tokens joined by a
semicolon separator with no trailing separator), used only for the
refinement comparison against get_function_mangled_name. -/
def spec_wire_mangled_name (name_with_suffix : String) (tokens : List String) : String :=
  name_with_suffix ++ sepJoin ";" tokens

/- ---------------------------------------------------------------------
Variant expander (gen_function_variants, lines 526-568).
--------------------------------------------------------------------- -/

/-- The admissible genType values (line 533). -/
def validGenTypes : List String := ["sampler_or_image", "vec", "yes"]

/-- The tag-collection loop of gen_function_variants (lines 531-537): walk
the parameters, validate each genType value, accumulate the set of
distinct tags (insertion order kept), and fail with the
ConflictingGenericsError as soon as the set holds more than one tag. -/
def collectGenTypesAux (acc : List String) : List TType → Except GenError (List String)
  | [] => .ok acc
  | p :: ps =>
    match p.genType with
    | none => collectGenTypesAux acc ps
    | some g =>
      if validGenTypes.contains g = false then .error (.unexpectedGenTypeValue g)
      else
        let acc2 := if acc.contains g then acc else acc ++ [g]
        if acc2.length > 1 then .error (.conflictingGenerics acc2)
        else collectGenTypesAux acc2 ps

/-- Boolean form of the statement that every genType tag occurring among a
parameter list is one of the admissible values. -/
def allGenTypesValid (ps : List TType) : Bool :=
  ps.all fun p =>
    match p.genType with
    | none => true
    | some g => validGenTypes.contains g

/-- A function declaration record as the variant expander and the
identity engine consume it.  The remaining metadata keys of the Python
dict (level, extension, op, suffix, ...) are copied unchanged by the
expander and never read by it, and the emitter receives them through
explicit arguments below, so they are not repeated here. -/
structure FunctionProps where
  name : String
  returnType : TType
  parameters : List TType
deriving DecidableEq, Repr

/-- Option-propagating map over a parameter list. -/
def mapOptList (f : TType → Option TType) : List TType → Option (List TType)
  | [] => some []
  | t :: ts =>
    match f t, mapOptList f ts with
    | some v, some vs => some (v :: vs)
    | _, _ => none

/-- One iteration of the dimension loop of gen_function_variants (lines
560-567): specialise every parameter and the return type to one vector
size. -/
def specializeDim (props : FunctionProps) (size : Nat) : Option FunctionProps :=
  match mapOptList (fun p => p.specific_type size) props.parameters,
        props.returnType.specific_type size with
  | some ps, some rt => some { props with parameters := ps, returnType := rt }
  | _, _ => none

/-- One iteration of the sampler-family loop of gen_function_variants
(lines 545-553): specialise every parameter and the return type to one
basic-type family. -/
def specializeFam (props : FunctionProps) (basicTypePfx : String) :
    Option FunctionProps :=
  match mapOptList (fun p => p.specific_sampler_or_image_type basicTypePfx)
          props.parameters,
        props.returnType.specific_sampler_or_image_type basicTypePfx with
  | some ps, some rt => some { props with parameters := ps, returnType := rt }
  | _, _ => none

/-- Map a specialisation over a list of instantiations, turning a Python
KeyError inside an iteration into the stated error. -/
def exceptMapOpt {α β : Type} (err : GenError) (f : α → Option β) :
    List α → Except GenError (List β)
  | [] => .ok []
  | x :: xs =>
    match f x with
    | none => .error err
    | some v =>
      match exceptMapOpt err f xs with
      | .error e => .error e
      | .ok vs => .ok (v :: vs)

/-- gen_function_variants (lines 526-568): collect the distinct generic
tags of the parameters (the return type is not scanned); no tag leaves
the declaration as its own single variant; the sampler_or_image tag
yields the float, int, uint family variants in that order; otherwise the
vec tag yields dimensions 2,3,4 and the plain generic tag dimensions
1,2,3,4, in ascending order. -/
def gen_function_variants (props : FunctionProps) : Except GenError (List FunctionProps) :=
  match collectGenTypesAux [] props.parameters with
  | .error e => .error e
  | .ok gen_type =>
    if gen_type.length = 0 then .ok [props]
    else if gen_type.contains "sampler_or_image" then
      exceptMapOpt (.keyError "basic") (specializeFam props) ["", "I", "U"]
    else
      exceptMapOpt (.keyError "basic") (specializeDim props)
        (if gen_type.contains "vec" then [2, 3, 4] else [1, 2, 3, 4])

/- ---------------------------------------------------------------------
Unmangled-name records (class GroupedList, lines 176-204, and the
recording step of process_single_function_group, lines 597-609).
--------------------------------------------------------------------- -/

/-- One stored unmangled-builtin record.  Of the Python dict only the
extension field is ever read back by the generator (the generated code
text is write-only output), so only that field is modelled. -/
structure UnmangledEntry where
  extension : String
deriving DecidableEq, Repr

/-- GroupedList, flattened: the nested level/condition/name OrderedDicts
become one association list keyed by the (level, condition, name) triple,
with the same add/has_key/get observable behaviour. -/
structure GroupedList where
  objs : List ((String × String × String) × UnmangledEntry)
deriving DecidableEq, Repr

/-- GroupedList.has_key (lines 191-196): raises on a level outside the
fixed list, otherwise key membership. -/
def GroupedList.has_key (g : GroupedList) (level condition name : String) :
    Except GenError Bool :=
  if levels.contains level then .ok (lookupA g.objs (level, condition, name)).isSome
  else .error (.unexpectedLevel level)

/-- GroupedList.get (lines 198-201): the stored object when has_key, else
none. -/
def GroupedList.get (g : GroupedList) (level condition name : String) :
    Except GenError (Option UnmangledEntry) :=
  match g.has_key level condition name with
  | .error e => .error e
  | .ok true => .ok (lookupA g.objs (level, condition, name))
  | .ok false => .ok none

/-- GroupedList.add_obj (lines 184-189): raises on a level outside the
fixed list, otherwise a dict write at the triple key. -/
def GroupedList.add_obj (g : GroupedList) (level condition name : String)
    (obj : UnmangledEntry) : Except GenError GroupedList :=
  if levels.contains level then
    .ok ⟨updateAssoc g.objs (level, condition, name) obj⟩
  else .error (.unexpectedLevel level)

/-- The unmangled-record step of process_single_function_group (lines
601-609): when a record with no condition and no extension already exists
for the name at the level, do nothing; otherwise add the record when the
name is not yet recorded under this condition or the new record is
extension-free. -/
def record_unmangled_builtin (st : GroupedList)
    (level condition function_name extension : String) : Except GenError GroupedList :=
  match st.get level "NO_CONDITION" function_name with
  | .error e => .error e
  | .ok noCondRec =>
    if (match noCondRec with
        | some r => r.extension == "UNDEFINED"
        | none => false) then
      .ok st
    else
      match st.has_key level condition function_name with
      | .error e => .error e
      | .ok hk =>
        if hk = false ∨ extension = "UNDEFINED" then
          st.add_obj level condition function_name ⟨extension⟩
        else .ok st

/- ---------------------------------------------------------------------
Identity assignment over materialized variants (the variant loop of
process_single_function_group, lines 611-651, and the last-identity
record of output_strings, line 674).
--------------------------------------------------------------------- -/

/-- One concrete variant as the loop consumes it: the plain function name
(used for the wire mangled name), the name with suffix (used for the
dedup key), and the concrete parameters. -/
structure VariantIn where
  function_name : String
  name_with_suffix : String
  parameters : List TType
deriving DecidableEq, Repr

/-- The mutable state of the variant loop: defined_function_variants
(line 570), id_counter (line 455), and the essence of
builtin_id_declarations, the ordered list of (unique name, identity)
pairs (line 627). -/
structure EmitState where
  defined_function_variants : List String
  id_counter : Nat
  builtin_ids : List (String × Nat)
deriving DecidableEq, Repr

/-- The initial state of the run. -/
def initialEmitState : EmitState := ⟨[], 0, []⟩

/-- One iteration of the variant loop (lines 611-651): compute the dedup
key; when already defined, skip the variant entirely (continue) without
touching the counter; otherwise record the key, compute the wire mangled
name, record the identity as the current counter value and increment the
counter. -/
def processVariant (st : EmitState) (v : VariantIn) : Except GenError EmitState :=
  match get_unique_identifier_name v.name_with_suffix v.parameters with
  | none => .error (.keyError "basic_mangled_names")
  | some unique_name =>
    if unique_name ∈ st.defined_function_variants then .ok st
    else
      match get_function_mangled_name v.function_name v.parameters with
      | none => .error (.keyError "basic_mangled_names")
      | some _mangled =>
        .ok ⟨st.defined_function_variants ++ [unique_name],
             st.id_counter + 1,
             st.builtin_ids ++ [(unique_name, st.id_counter)]⟩

/-- The variant loop folded over the stream of variants the run
encounters, in order. -/
def processVariants : EmitState → List VariantIn → Except GenError EmitState
  | st, [] => .ok st
  | st, v :: vs =>
    match processVariant st v with
    | .error e => .error e
    | .ok st2 => processVariants st2 vs

/-- The recorded last assigned identity (output_strings, line 674):
id_counter - 1 as a Python integer, hence -1 on an empty run. -/
def lastStaticBuiltinId (st : EmitState) : Int := (st.id_counter : Int) - 1

/-- Equality of two types everywhere except the qualifier field, the
relation under which the dedup key is blind (claim C9). -/
def eqExceptQualifier (a b : TType) : Prop :=
  a.basic = b.basic ∧ a.primarySize = b.primarySize ∧
  a.secondarySize = b.secondarySize ∧ a.precision = b.precision ∧
  a.genType = b.genType

/- ---------------------------------------------------------------------
Declaration parsing (get_parsed_functions, lines 352-418).
--------------------------------------------------------------------- -/

/-- A parsed function declaration.  The metadata merged by
function_props.update(default_metadata) is kept as the uninterpreted text
of the active DEFAULT METADATA line (the JSON decoding is an external
library concern). -/
structure PFunction where
  name : String
  returnType : TType
  parameters : List TType
  metadataText : Option String
deriving Repr

/-- A group of declarations: name, functions in order, named subgroups
(dict write order), and the uninterpreted metadata text of the GROUP
BEGIN line. -/
structure PGroup where
  name : String
  functions : List PFunction
  subgroups : List (String × PGroup)
  metadataText : Option String
deriving Repr

/-- The parsing state: the top-level ordered mapping parsed_functions,
the group stack (top of stack last), and the active default metadata. -/
structure ParseState where
  parsed : List (String × PGroup)
  stack : List PGroup
  defaultMeta : Option String
deriving Repr

/-- The initial parsing state. -/
def initParseState : ParseState := ⟨[], [], none⟩

/-- Word characters of the Python regular-expression class used by the
function-signature pattern. -/
def isWordChar (c : Char) : Bool := c.isAlphanum || c == '_'

/-- Match against the function-signature pattern of line 368: a word, a
space, a word, an opening parenthesis, anything, then a closing
parenthesis and semicolon ending the line.  Returns the return type
token, the function name, and the raw parameter text. -/
def funMatch (s : String) : Option (String × String × String) :=
  match splitAtFirst ' ' s.data with
  | none => none
  | some (g1, rest) =>
    if g1 ≠ [] ∧ g1.all isWordChar then
      match splitAtFirst '(' rest with
      | none => none
      | some (g2, tailChars) =>
        if g2 ≠ [] ∧ g2.all isWordChar then
          match tailChars.reverse with
          | ';' :: ')' :: midRev => some (String.mk g1, String.mk g2, String.mk midRev.reverse)
          | _ => none
        else none
    else none

/-- parse_function_parameters (lines 354-361): an empty parameter text is
the empty list, otherwise split on comma-space and parse each stripped
token as a type. -/
def parseParamList : List (List Char) → Except GenError (List TType)
  | [] => .ok []
  | p :: ps =>
    match mkTType (String.mk (trimList p)) with
    | .error e => .error e
    | .ok t =>
      match parseParamList ps with
      | .error e => .error e
      | .ok ts => .ok (t :: ts)

/-- parse_function_parameters, entry point. -/
def parse_function_parameters (parameters : String) : Except GenError (List TType) :=
  if parameters = "" then .ok []
  else parseParamList (splitCommaSpace parameters.data)

/-- The GROUP BEGIN branch (lines 376-387): push a fresh group whose name
is the first word after the keyword and whose metadata is the raw
remainder, if any. -/
def processGroupBegin (st : ParseState) (line : String) : Except GenError ParseState :=
  .ok { st with
        stack := st.stack ++
          [{ name := (splitOnce (pyStrip (pyDrop line 12))).1,
             functions := [], subgroups := [],
             metadataText := (splitOnce (pyStrip (pyDrop line 12))).2 }] }

/-- The GROUP END branch (lines 388-400): take the innermost open group
(IndexError on an empty stack), fail with the structural-mismatch error
when its name differs from the name on the line, then either promote it
to a top-level entry and reset the default metadata (stack now empty) or
attach it as a subgroup of the new top of stack. -/
def processGroupEnd (st : ParseState) (line : String) : Except GenError ParseState :=
  match popLast st.stack with
  | none => .error .indexError
  | some (rest, cur) =>
    if cur.name = pyStrip (pyDrop line 10) then
      match popLast rest with
      | none =>
        .ok { parsed := updateAssoc st.parsed cur.name cur,
              stack := rest, defaultMeta := none }
      | some (rest2, parent) =>
        .ok { st with
              stack := rest2 ++
                [{ parent with subgroups := updateAssoc parent.subgroups cur.name cur }] }
    else .error (.structuralMismatch cur.name (pyStrip (pyDrop line 10)))

/-- The function-signature branch (lines 404-414): parse the return type
and the parameters, then append the declaration, carrying the active
default metadata, to the innermost open group (IndexError when no group
is open). -/
def processFunctionLine (st : ParseState) (returnTypeTok fname paramsText : String) :
    Except GenError ParseState :=
  match mkTType returnTypeTok with
  | .error e => .error e
  | .ok rT =>
    match parse_function_parameters paramsText with
    | .error e => .error e
    | .ok ps =>
      match popLast st.stack with
      | none => .error .indexError
      | some (rest, top) =>
        .ok { st with
              stack := rest ++
                [{ top with
                   functions := top.functions ++ [⟨fname, rT, ps, st.defaultMeta⟩] }] }

/-- One line of the parsing loop (lines 374-416), with the branches in
the source order: GROUP BEGIN, GROUP END, DEFAULT METADATA, a
function-signature match, and the UnexpectedInputError fallback. -/
def processLine (st : ParseState) (line : String) : Except GenError ParseState :=
  if pyStartsWith line "GROUP BEGIN " then processGroupBegin st line
  else if pyStartsWith line "GROUP END " then processGroupEnd st line
  else if pyStartsWith line "DEFAULT METADATA" then
    .ok { st with defaultMeta := some (pyStrip (pyDrop line 16)) }
  else
    match funMatch line with
    | some (rt, nm, params) => processFunctionLine st rt nm params
    | none => .error (.unexpectedInput line)

/-- The parsing loop folded over the preprocessed lines. -/
def processLines : ParseState → List String → Except GenError ParseState
  | st, [] => .ok st
  | st, l :: ls =>
    match processLine st l with
    | .error e => .error e
    | .ok st2 => processLines st2 ls

/-- The line preprocessing of line 366: strip every line and drop blank
lines and comment lines. -/
def preprocess (lines : List String) : List String :=
  (lines.map pyStrip).filter fun l => !(l == "") && !(pyStartsWith l "//")

/-- get_parsed_functions (lines 352-418): run the loop over the
preprocessed input and return the top-level mapping.  Nothing after the
loop inspects the group stack. -/
def get_parsed_functions (lines : List String) :
    Except GenError (List (String × PGroup)) :=
  match processLines initParseState (preprocess lines) with
  | .error e => .error e
  | .ok st => .ok st.parsed

deriving instance DecidableEq for Except

/- ---------------------------------------------------------------------
Concrete fixtures used by the witnesses and counterexamples.
--------------------------------------------------------------------- -/

/-- The concrete type parsed from the token float. -/
def floatT : TType := ⟨some "Float", 1, 1, "Undefined", "Global", none⟩

/-- The concrete type parsed from the token out float. -/
def outFloatT : TType := ⟨some "Float", 1, 1, "Undefined", "Out", none⟩

/-- The concrete type parsed from the token ivec3. -/
def ivec3T : TType := ⟨some "Int", 3, 1, "Undefined", "Global", none⟩

/-- The generic type parsed from the token genType. -/
def genFloatT : TType := ⟨some "Float", 1, 1, "Undefined", "Global", some "yes"⟩

/-- The generic type parsed from the token gsampler2D. -/
def gsamplerT : TType := ⟨some "Sampler2D", 1, 1, "Undefined", "Global", some "sampler_or_image"⟩

/-- A declaration whose only generic-tagged type is its return type. -/
def c3props : FunctionProps := ⟨"foo", genFloatT, [floatT]⟩

/-- A declaration with one full-generic parameter (and return type). -/
def cGenProps : FunctionProps := ⟨"sin", genFloatT, [genFloatT]⟩

/-- The dimension-1 specialisation of cGenProps. -/
def cgen1 : FunctionProps :=
  ⟨"sin", ⟨some "Float", 1, 1, "Undefined", "Global", none⟩,
   [⟨some "Float", 1, 1, "Undefined", "Global", none⟩]⟩

/-- The dimension-2 specialisation of cGenProps. -/
def cgen2 : FunctionProps :=
  ⟨"sin", ⟨some "Float", 2, 1, "Undefined", "Global", none⟩,
   [⟨some "Float", 2, 1, "Undefined", "Global", none⟩]⟩

/-- The dimension-3 specialisation of cGenProps. -/
def cgen3 : FunctionProps :=
  ⟨"sin", ⟨some "Float", 3, 1, "Undefined", "Global", none⟩,
   [⟨some "Float", 3, 1, "Undefined", "Global", none⟩]⟩

/-- The dimension-4 specialisation of cGenProps. -/
def cgen4 : FunctionProps :=
  ⟨"sin", ⟨some "Float", 4, 1, "Undefined", "Global", none⟩,
   [⟨some "Float", 4, 1, "Undefined", "Global", none⟩]⟩

/-- A declaration mixing a full-generic and a sampler-generic parameter. -/
def c7props : FunctionProps := ⟨"mix", floatT, [genFloatT, gsamplerT]⟩

/-- A concrete variant stream with a qualifier-only duplicate at the end. -/
def cVs : List VariantIn :=
  [⟨"sin", "sin", [floatT]⟩, ⟨"cos", "cos", [floatT]⟩, ⟨"sin", "sin", [outFloatT]⟩]

/-- The state after running the variant loop on cVs. -/
def cEmitSt : EmitState := ⟨["sin_f_", "cos_f_"], 2, [("sin_f_", 0), ("cos_f_", 1)]⟩

/-- A variant with one plain float parameter. -/
def cV1 : VariantIn := ⟨"m", "m", [floatT]⟩

/-- The same variant with the parameter qualified out. -/
def cV2 : VariantIn := ⟨"m", "m", [outFloatT]⟩

/-- The state after materializing cV1 from the initial state. -/
def cSt9 : EmitState := ⟨["m_f_"], 1, [("m_f_", 0)]⟩

/-- A grouped list holding one unconditioned extension-free record. -/
def cGL : GroupedList :=
  ⟨[(("COMMON_BUILTINS", "NO_CONDITION", "sin"), ⟨"UNDEFINED"⟩)]⟩

/-- An input whose last group is never closed. -/
def c10Lines : List String :=
  ["GROUP BEGIN Foo", "float sin(float);", "GROUP END Foo",
   "GROUP BEGIN Bar", "float cos(float);"]

/-- The parsing state reached at the end of c10Lines: Foo is a top-level
entry, Bar is still open on the stack with its declaration inside it. -/
def c10St : ParseState :=
  ⟨[("Foo", ⟨"Foo", [⟨"sin", floatT, [floatT], none⟩], [], none⟩)],
   [⟨"Bar", [⟨"cos", floatT, [floatT], none⟩], [], none⟩], none⟩

/- ---------------------------------------------------------------------
Helper lemmas.
--------------------------------------------------------------------- -/

/-- Appending the empty string is the identity. -/
theorem strAppendNil (s : String) : s ++ "" = s := by
  apply String.ext
  rw [String.data_append]
  exact List.append_nil _

/-- String append is associative. -/
theorem strAppendAssoc (a b c : String) : a ++ b ++ c = a ++ (b ++ c) := by
  apply String.ext
  simp [String.data_append, List.append_assoc]

/-- The mangling accumulation loop appends the concatenation of the
per-parameter tokens to the accumulator. -/
theorem mangle_parameters_eq :
    ∀ (ps : List TType) (sep : String) (ts : List String) (acc : String),
      param_tokens sep ps = some ts →
      mangle_parameters sep acc ps = some (acc ++ joinTokens ts) := by
  intro ps
  induction ps with
  | nil =>
    intro sep ts acc h
    simp only [param_tokens] at h
    injection h with h
    subst h
    simp [mangle_parameters, joinTokens, strAppendNil]
  | cons p ps ih =>
    intro sep ts acc h
    simp only [param_tokens] at h
    cases hm : p.get_mangled_name sep with
    | none => rw [hm] at h; simp at h
    | some t =>
      rw [hm] at h
      cases hrest : param_tokens sep ps with
      | none => rw [hrest] at h; simp at h
      | some ts2 =>
        rw [hrest] at h
        injection h with h
        subst h
        simp only [mangle_parameters, hm]
        rw [ih sep ts2 (acc ++ t) hrest]
        rw [joinTokens, strAppendAssoc]

/- ---------------------------------------------------------------------
Claim C5 (hash correctness).
--------------------------------------------------------------------- -/

/-- C5: every string hashed by the generator gets the FNV-1a value with
offset basis 0x811c9dc5 and prime 16777619 over its character codes,
reduced mod 2^32 after each multiplication; in particular the hash of
sin agrees with the independent transcription of the algorithm. -/
theorem hash32_fnv1a :
    (∀ s : String, hash32 s = fnv1a_spec 0x811c9dc5 (s.data.map Char.toNat)) ∧
    hash32 "sin" = fnv1a_spec 0x811c9dc5 [115, 105, 110] := by
  have key : ∀ (l : List Char) (h : Nat),
      l.foldl (fun h c => ((h ^^^ c.toNat) * 16777619) % 4294967296) h =
        fnv1a_spec h (l.map Char.toNat) := by
    intro l
    induction l with
    | nil => intro h; rfl
    | cons c cs ih =>
      intro h
      simp only [List.foldl, List.map, fnv1a_spec]
      exact ih _
  exact ⟨fun s => key s.data _, by decide⟩

/- ---------------------------------------------------------------------
Claim C2 (wire mangled name), corrected.
--------------------------------------------------------------------- -/

/-- C2 counterexample: the claim says the wire mangled name of sin with
one float parameter is the name-plus-suffix followed by the token f with
no trailing separator, i.e. sinf; the code produces sin(f; — the plain
name, an opening parenthesis, and a trailing semicolon after the last
token. -/
theorem wire_mangled_name_cex :
    get_function_mangled_name "sin" [floatT] = some "sin(f;" ∧
    spec_wire_mangled_name "sin" ["f"] = "sinf" ∧
    ("sin(f;" : String) ≠ "sinf" := by decide

/-- C2 amended: the wire mangled name is the plain function name (the
suffix is not used), an opening parenthesis, then every parameter token
in order, each token carrying its own trailing semicolon separator,
including the last. -/
theorem wire_mangled_name_amended (fname : String) (ps : List TType) (ts : List String)
    (h : param_tokens ";" ps = some ts) :
    get_function_mangled_name fname ps = some (fname ++ "(" ++ joinTokens ts) := by
  unfold get_function_mangled_name
  exact mangle_parameters_eq ps ";" ts (fname ++ "(") h

/-- Witness for the amended C2 on a concrete two-parameter signature. -/
theorem wire_mangled_name_amended_witness :
    param_tokens ";" [floatT, ivec3T] = some ["f;", "3i;"] ∧
    get_function_mangled_name "max" [floatT, ivec3T] =
      some ("max" ++ "(" ++ joinTokens ["f;", "3i;"]) :=
  ⟨by decide, wire_mangled_name_amended "max" [floatT, ivec3T] ["f;", "3i;"] (by decide)⟩

/- ---------------------------------------------------------------------
Claim C8 (unique-variant key), corrected.
--------------------------------------------------------------------- -/

/-- C8 counterexample: the dedup key of a zero-parameter variant is the
name followed by an underscore, not the literal token empty; the key of a
signature with an out parameter carries no o_ marker.  The empty token
and the qualifier markers belong to the parameters-variable name built by
get_variable_name_to_store_parameters instead. -/
theorem unique_key_cex :
    get_unique_identifier_name "sin" ([] : List TType) = some "sin_" ∧
    ("sin_" : String) ≠ "empty" ∧
    get_unique_identifier_name "frexp" [floatT, outFloatT] = some "frexp_f_f_" ∧
    get_variable_name_to_store_parameters [floatT, outFloatT] = some "p_f_o_f_" ∧
    get_variable_name_to_store_parameters ([] : List TType) = some "empty" := by decide

/-- C8 amended: the unique-variant key used for deduplication is the
name-plus-suffix, an underscore, then every parameter token in order with
the underscore separator, each token carrying its trailing underscore,
with no qualifier markers and no special zero-parameter token. -/
theorem unique_key_amended (fname : String) (ps : List TType) (ts : List String)
    (h : param_tokens "_" ps = some ts) :
    get_unique_identifier_name fname ps = some (fname ++ "_" ++ joinTokens ts) := by
  unfold get_unique_identifier_name
  exact mangle_parameters_eq ps "_" ts (fname ++ "_") h

/-- Witness for the amended C8 on a concrete two-parameter signature. -/
theorem unique_key_amended_witness :
    param_tokens "_" [floatT, ivec3T] = some ["f_", "3i_"] ∧
    get_unique_identifier_name "max" [floatT, ivec3T] =
      some ("max" ++ "_" ++ joinTokens ["f_", "3i_"]) :=
  ⟨by decide, unique_key_amended "max" [floatT, ivec3T] ["f_", "3i_"] (by decide)⟩

/- ---------------------------------------------------------------------
Claim C9 (dedup key ignores qualifiers).
--------------------------------------------------------------------- -/

/-- The mangled token reads only the basic kind and the two sizes, so it
is blind to the qualifier. -/
theorem get_mangled_name_qual_congr (a b : TType) (sep : String)
    (h : eqExceptQualifier a b) :
    a.get_mangled_name sep = b.get_mangled_name sep := by
  obtain ⟨h1, h2, h3, h4, h5⟩ := h
  unfold TType.get_mangled_name TType.is_matrix
  rw [h1, h2, h3]

/-- The mangling accumulation loop is blind to the qualifiers of the
parameter list. -/
theorem mangle_parameters_qual_congr :
    ∀ (ps qs : List TType), List.Forall₂ eqExceptQualifier ps qs →
      ∀ (sep acc : String), mangle_parameters sep acc ps = mangle_parameters sep acc qs := by
  intro ps qs h
  induction h with
  | nil => intro sep acc; rfl
  | @cons a b l1 l2 hab htail ih =>
    intro sep acc
    simp only [mangle_parameters]
    rw [get_mangled_name_qual_congr a b sep hab]
    cases hm : b.get_mangled_name sep with
    | none => simp
    | some t => simp only; exact ih sep (acc ++ t)

/-- C9: two variants under the same name-plus-suffix whose parameters
differ only in their qualifiers produce the same dedup key, so after the
first one materializes (taking one identity), processing the second
leaves the state untouched: no identity, no counter increment. -/
theorem dedup_ignores_qualifiers (st st2 : EmitState) (v1 v2 : VariantIn) (k : String)
    (hn : v1.name_with_suffix = v2.name_with_suffix)
    (hp : List.Forall₂ eqExceptQualifier v1.parameters v2.parameters)
    (hk : get_unique_identifier_name v1.name_with_suffix v1.parameters = some k)
    (hnew : k ∉ st.defined_function_variants)
    (hrun : processVariant st v1 = .ok st2) :
    get_unique_identifier_name v2.name_with_suffix v2.parameters = some k ∧
    st2.builtin_ids = st.builtin_ids ++ [(k, st.id_counter)] ∧
    processVariant st2 v2 = .ok st2 := by
  have hk2 : get_unique_identifier_name v2.name_with_suffix v2.parameters = some k := by
    unfold get_unique_identifier_name at hk ⊢
    rw [← hn, ← mangle_parameters_qual_congr _ _ hp]
    exact hk
  unfold processVariant at hrun
  rw [hk] at hrun
  simp only [if_neg hnew] at hrun
  cases hm : get_function_mangled_name v1.function_name v1.parameters with
  | none => rw [hm] at hrun; simp at hrun
  | some m =>
    rw [hm] at hrun
    injection hrun with hrun
    subst hrun
    refine ⟨hk2, rfl, ?_⟩
    unfold processVariant
    rw [hk2]
    simp

/-- Witness for C9: the out-qualified duplicate of a materialized float
variant is dropped without an identity. -/
theorem dedup_ignores_qualifiers_witness :
    processVariant cSt9 cV2 = .ok cSt9 :=
  (dedup_ignores_qualifiers initialEmitState cSt9 cV1 cV2 "m_f_" rfl
    (List.Forall₂.cons ⟨rfl, rfl, rfl, rfl, rfl⟩ List.Forall₂.nil)
    (by decide) (by decide) (by decide)).2.2

/- ---------------------------------------------------------------------
Claim C1 (identity uniqueness and density).
--------------------------------------------------------------------- -/

/-- One loop iteration either leaves the state unchanged (a duplicate
variant) or appends one key, one identity equal to the current counter,
and increments the counter. -/
theorem processVariant_cases (st st2 : EmitState) (v : VariantIn)
    (h : processVariant st v = .ok st2) :
    st2 = st ∨
    ∃ k, st2 = ⟨st.defined_function_variants ++ [k], st.id_counter + 1,
                st.builtin_ids ++ [(k, st.id_counter)]⟩ := by
  unfold processVariant at h
  cases hk : get_unique_identifier_name v.name_with_suffix v.parameters with
  | none => rw [hk] at h; simp at h
  | some k =>
    rw [hk] at h
    simp only at h
    by_cases hmem : k ∈ st.defined_function_variants
    · rw [if_pos hmem] at h
      injection h with h
      exact Or.inl h.symm
    · rw [if_neg hmem] at h
      cases hm : get_function_mangled_name v.function_name v.parameters with
      | none => rw [hm] at h; simp at h
      | some m =>
        rw [hm] at h
        injection h with h
        exact Or.inr ⟨k, h.symm⟩

/-- The loop invariant of the variant loop: the identities recorded so
far are exactly 0, 1, ..., counter-1 in order, and the number of
materialized keys equals the counter. -/
theorem processVariants_invariant :
    ∀ (vs : List VariantIn) (st st2 : EmitState),
      processVariants st vs = .ok st2 →
      st.builtin_ids.map Prod.snd = List.range st.id_counter →
      st.defined_function_variants.length = st.id_counter →
      st2.builtin_ids.map Prod.snd = List.range st2.id_counter ∧
      st2.defined_function_variants.length = st2.id_counter := by
  intro vs
  induction vs with
  | nil =>
    intro st st2 h h1 h2
    simp only [processVariants] at h
    injection h with h
    subst h
    exact ⟨h1, h2⟩
  | cons v vs ih =>
    intro st st2 h h1 h2
    simp only [processVariants] at h
    cases hp : processVariant st v with
    | error e => rw [hp] at h; simp at h
    | ok stm =>
      rw [hp] at h
      rcases processVariant_cases st stm v hp with heq | ⟨k, heq⟩
      · rw [heq] at h
        exact ih st st2 h h1 h2
      · subst heq
        refine ih _ st2 h ?_ ?_
        · simp only [List.map_append, h1, List.map_cons, List.map_nil]
          exact (List.range_succ _).symm
        · simp [h2]

/-- C1: on every successful run of the variant loop from the initial
state, the recorded identities are exactly 0 .. counter-1 with no gaps or
repeats in encounter order, the counter counts exactly the materialized
variants, and the recorded last assigned identity is the final counter
value minus one. -/
theorem identity_assignment_dense (vs : List VariantIn) (st : EmitState)
    (h : processVariants initialEmitState vs = .ok st) :
    st.builtin_ids.map Prod.snd = List.range st.id_counter ∧
    st.defined_function_variants.length = st.id_counter ∧
    lastStaticBuiltinId st = (st.id_counter : Int) - 1 := by
  obtain ⟨a, b⟩ := processVariants_invariant vs initialEmitState st h (by rfl) (by rfl)
  exact ⟨a, b, rfl⟩

/-- Witness for C1 on a concrete stream containing a qualifier-only
duplicate: identities 0 and 1 are assigned, the duplicate gets none, and
the last assigned identity is 1. -/
theorem identity_assignment_dense_witness :
    processVariants initialEmitState cVs = .ok cEmitSt ∧
    cEmitSt.builtin_ids.map Prod.snd = List.range cEmitSt.id_counter ∧
    cEmitSt.defined_function_variants.length = cEmitSt.id_counter ∧
    lastStaticBuiltinId cEmitSt = (cEmitSt.id_counter : Int) - 1 :=
  ⟨by decide, identity_assignment_dense cVs cEmitSt (by decide)⟩

/- ---------------------------------------------------------------------
Claim C3 (generic-tag scan), corrected.
--------------------------------------------------------------------- -/

/-- The tag-collection loop leaves the accumulator untouched when no
parameter carries a genType tag. -/
theorem collect_all_none :
    ∀ (ps : List TType) (acc : List String),
      (∀ p ∈ ps, p.genType = none) → collectGenTypesAux acc ps = .ok acc := by
  intro ps
  induction ps with
  | nil => intro acc h; rfl
  | cons p ps ih =>
    intro acc h
    have hp := h p (by simp)
    simp only [collectGenTypesAux, hp]
    exact ih acc fun q hq => h q (List.mem_cons_of_mem p hq)

/-- C3 counterexample: a declaration whose only generic-tagged type is
its return type is not expanded at all — the expander returns it as its
own single variant, return type still generic. -/
theorem return_only_generic_cex :
    c3props.returnType.genType = some "yes" ∧
    c3props.parameters = [floatT] ∧ floatT.genType = none ∧
    gen_function_variants c3props = .ok [c3props] := by decide

/-- C3 amended: the variant expander collects the generic tags by
scanning only the parameters; the return type is not scanned, so any
declaration none of whose parameters carries a tag — even one with a
generic return type — is its own single variant, returned unchanged. -/
theorem return_generic_not_scanned (props : FunctionProps)
    (h : ∀ p ∈ props.parameters, p.genType = none) :
    gen_function_variants props = .ok [props] := by
  unfold gen_function_variants
  rw [collect_all_none props.parameters [] h]
  rfl

/-- Witness for the amended C3 at the concrete declaration with a generic
return type and a concrete parameter. -/
theorem return_generic_not_scanned_witness :
    gen_function_variants c3props = .ok [c3props] :=
  return_generic_not_scanned c3props (by decide)

/- ---------------------------------------------------------------------
Claim C6 (shadowing of unmangled records).
--------------------------------------------------------------------- -/

/-- C6: once an unconditioned, extension-free unmangled record exists for
a name at a level, any later recording attempt for that name and level —
whatever its condition and extension — returns the stored state
unchanged. -/
theorem unconditioned_record_shadows (g : GroupedList)
    (level condition function_name extension : String) (e : UnmangledEntry)
    (hget : g.get level "NO_CONDITION" function_name = .ok (some e))
    (hext : e.extension = "UNDEFINED") :
    record_unmangled_builtin g level condition function_name extension = .ok g := by
  unfold record_unmangled_builtin
  rw [hget]
  simp [hext]

/-- Witness for C6: a conditioned, extension-tagged attempt against a
stored unconditioned extension-free record for sin leaves the grouped
list unchanged. -/
theorem unconditioned_record_shadows_witness :
    record_unmangled_builtin cGL "COMMON_BUILTINS" "cond_x" "sin" "EXT_foo" = .ok cGL :=
  unconditioned_record_shadows cGL "COMMON_BUILTINS" "cond_x" "sin" "EXT_foo"
    ⟨"UNDEFINED"⟩ (by decide) rfl

/- ---------------------------------------------------------------------
Claim C4 (generic expansion completeness).
--------------------------------------------------------------------- -/

/-- C4: when the parameters carry exactly the full-generic tag the
expander produces exactly the four dimension specialisations 1,2,3,4 in
ascending order; exactly the vector tag produces the three dimensions
2,3,4; exactly the sampler-or-image tag produces the float, int, uint
family specialisations in that order; and no tag at all produces the
declaration itself as the single variant. -/
theorem generic_expansion_counts (props : FunctionProps) :
    (collectGenTypesAux [] props.parameters = .ok ["yes"] →
      ∀ v1 v2 v3 v4, specializeDim props 1 = some v1 → specializeDim props 2 = some v2 →
        specializeDim props 3 = some v3 → specializeDim props 4 = some v4 →
        gen_function_variants props = .ok [v1, v2, v3, v4]) ∧
    (collectGenTypesAux [] props.parameters = .ok ["vec"] →
      ∀ v2 v3 v4, specializeDim props 2 = some v2 → specializeDim props 3 = some v3 →
        specializeDim props 4 = some v4 →
        gen_function_variants props = .ok [v2, v3, v4]) ∧
    (collectGenTypesAux [] props.parameters = .ok ["sampler_or_image"] →
      ∀ vF vI vU, specializeFam props "" = some vF → specializeFam props "I" = some vI →
        specializeFam props "U" = some vU →
        gen_function_variants props = .ok [vF, vI, vU]) ∧
    (collectGenTypesAux [] props.parameters = .ok [] →
      gen_function_variants props = .ok [props]) := by
  refine ⟨?_, ?_, ?_, ?_⟩
  · intro h v1 v2 v3 v4 h1 h2 h3 h4
    unfold gen_function_variants
    rw [h]
    simp [exceptMapOpt, h1, h2, h3, h4]
  · intro h v2 v3 v4 h2 h3 h4
    unfold gen_function_variants
    rw [h]
    simp [exceptMapOpt, h2, h3, h4]
  · intro h vF vI vU hF hI hU
    unfold gen_function_variants
    rw [h]
    simp [exceptMapOpt, hF, hI, hU]
  · intro h
    unfold gen_function_variants
    rw [h]
    rfl

/-- Witness for C4: the concrete full-generic declaration expands to its
four dimension specialisations in ascending order. -/
theorem generic_expansion_counts_witness :
    gen_function_variants cGenProps = .ok [cgen1, cgen2, cgen3, cgen4] :=
  (generic_expansion_counts cGenProps).1 (by decide) cgen1 cgen2 cgen3 cgen4
    (by decide) (by decide) (by decide) (by decide)

/- ---------------------------------------------------------------------
Claim C7 (mixed-generic rejection).
--------------------------------------------------------------------- -/

/-- Classification of a conflicting-generics failure of the expander. -/
def resultIsConflict : Except GenError (List FunctionProps) → Bool
  | .error (.conflictingGenerics _) => true
  | _ => false

/-- When the tag collection succeeds, the accumulator survives into the
result and every tag carried by a scanned parameter is in the result. -/
theorem collect_mem_of_ok :
    ∀ (ps : List TType) (acc res : List String),
      collectGenTypesAux acc ps = .ok res →
      (∀ a ∈ acc, a ∈ res) ∧ ∀ p ∈ ps, ∀ g, p.genType = some g → g ∈ res := by
  intro ps
  induction ps with
  | nil =>
    intro acc res h
    simp only [collectGenTypesAux] at h
    injection h with h
    subst h
    exact ⟨fun a ha => ha, by simp⟩
  | cons p ps ih =>
    intro acc res h
    simp only [collectGenTypesAux] at h
    cases hg : p.genType with
    | none =>
      rw [hg] at h
      obtain ⟨hacc, hps⟩ := ih acc res h
      refine ⟨hacc, ?_⟩
      intro q hq g hgq
      rcases List.mem_cons.mp hq with rfl | hq2
      · rw [hg] at hgq; exact absurd hgq (by simp)
      · exact hps q hq2 g hgq
    | some g =>
      rw [hg] at h
      simp only at h
      by_cases hv : validGenTypes.contains g = false
      · rw [if_pos hv] at h; simp at h
      · rw [if_neg hv] at h
        by_cases hlen : (if acc.contains g then acc else acc ++ [g]).length > 1
        · rw [if_pos hlen] at h; simp at h
        · rw [if_neg hlen] at h
          obtain ⟨hacc, hps⟩ := ih _ res h
          have hsub : ∀ a ∈ acc, a ∈ (if acc.contains g then acc else acc ++ [g]) := by
            intro a ha
            by_cases hc : acc.contains g
            · rw [if_pos hc]; exact ha
            · rw [if_neg hc]; exact List.mem_append_left _ ha
          have hgin : g ∈ (if acc.contains g then acc else acc ++ [g]) := by
            by_cases hc : acc.contains g
            · rw [if_pos hc]; simpa using hc
            · rw [if_neg hc]; simp
          refine ⟨fun a ha => hacc a (hsub a ha), ?_⟩
          intro q hq g2 hgq
          rcases List.mem_cons.mp hq with rfl | hq2
          · rw [hg] at hgq
            injection hgq with hgq
            subst hgq
            exact hacc g hgin
          · exact hps q hq2 g2 hgq

/-- When the tag collection succeeds from an accumulator of at most one
element, the result also holds at most one element. -/
theorem collect_len_le :
    ∀ (ps : List TType) (acc res : List String), acc.length ≤ 1 →
      collectGenTypesAux acc ps = .ok res → res.length ≤ 1 := by
  intro ps
  induction ps with
  | nil =>
    intro acc res hle h
    simp only [collectGenTypesAux] at h
    injection h with h
    subst h
    exact hle
  | cons p ps ih =>
    intro acc res hle h
    simp only [collectGenTypesAux] at h
    cases hg : p.genType with
    | none => rw [hg] at h; exact ih acc res hle h
    | some g =>
      rw [hg] at h
      simp only at h
      by_cases hv : validGenTypes.contains g = false
      · rw [if_pos hv] at h; simp at h
      · rw [if_neg hv] at h
        by_cases hlen : (if acc.contains g then acc else acc ++ [g]).length > 1
        · rw [if_pos hlen] at h; simp at h
        · rw [if_neg hlen] at h
          exact ih _ res (Nat.le_of_not_lt hlen) h

/-- When every tag among the parameters is admissible, the only failure
the tag collection can produce is the conflicting-generics one. -/
theorem collect_error_conflict :
    ∀ (ps : List TType) (acc : List String) (e : GenError),
      allGenTypesValid ps = true → collectGenTypesAux acc ps = .error e →
      ∃ tags, e = .conflictingGenerics tags := by
  intro ps
  induction ps with
  | nil =>
    intro acc e hval h
    simp only [collectGenTypesAux] at h
    simp at h
  | cons p ps ih =>
    intro acc e hval h
    simp only [allGenTypesValid, List.all_cons, Bool.and_eq_true] at hval
    obtain ⟨hvp, hvps⟩ := hval
    simp only [collectGenTypesAux] at h
    cases hg : p.genType with
    | none => rw [hg] at h; exact ih acc e hvps h
    | some g =>
      rw [hg] at h
      simp only at h
      rw [hg] at hvp
      simp only at hvp
      have hvF : ¬ validGenTypes.contains g = false := by rw [hvp]; simp
      rw [if_neg hvF] at h
      by_cases hlen : (if acc.contains g then acc else acc ++ [g]).length > 1
      · rw [if_pos hlen] at h
        injection h with h
        exact ⟨_, h.symm⟩
      · rw [if_neg hlen] at h
        exact ih _ e hvps h

/-- C7: a declaration whose parameters carry two distinct admissible
generic tags — in particular one full-generic and one sampler-or-image
parameter — makes the expander fail with the ConflictingGenericsError,
producing no variants. -/
theorem mixed_generics_rejected (props : FunctionProps) (p1 p2 : TType) (g1 g2 : String)
    (h1 : p1 ∈ props.parameters) (h2 : p2 ∈ props.parameters)
    (hg1 : p1.genType = some g1) (hg2 : p2.genType = some g2) (hne : g1 ≠ g2)
    (hvalid : allGenTypesValid props.parameters = true) :
    resultIsConflict (gen_function_variants props) = true := by
  cases hc : collectGenTypesAux [] props.parameters with
  | ok res =>
    exfalso
    obtain ⟨-, hmem⟩ := collect_mem_of_ok props.parameters [] res hc
    have m1 := hmem p1 h1 g1 hg1
    have m2 := hmem p2 h2 g2 hg2
    have hlen := collect_len_le props.parameters [] res (by simp) hc
    match res, m1, m2, hlen with
    | [x], m1, m2, _ =>
      simp only [List.mem_singleton] at m1 m2
      exact hne (m1.trans m2.symm)
  | error e =>
    obtain ⟨tags, rfl⟩ := collect_error_conflict props.parameters [] e hvalid hc
    unfold gen_function_variants
    rw [hc]
    rfl

/-- Witness for C7: the concrete declaration mixing a full-generic and a
sampler-generic parameter is rejected with the conflicting-generics
error. -/
theorem mixed_generics_rejected_witness :
    resultIsConflict (gen_function_variants c7props) = true :=
  mixed_generics_rejected c7props genFloatT gsamplerT "yes" "sampler_or_image"
    (by decide) (by decide) rfl rfl (by decide) (by decide)

/- ---------------------------------------------------------------------
Claim C10 (open groups at end of input).
--------------------------------------------------------------------- -/

/-- Membership after a dict write: the element was already present or it
is the written pair. -/
theorem mem_updateAssoc {κ β : Type} [DecidableEq κ] :
    ∀ (l : List (κ × β)) (k : κ) (v : β) (e : κ × β),
      e ∈ updateAssoc l k v → e ∈ l ∨ e = (k, v) := by
  intro l k v
  induction l with
  | nil =>
    intro e he
    simp only [updateAssoc] at he
    simp at he
    exact Or.inr he
  | cons kv rest ih =>
    obtain ⟨k2, v2⟩ := kv
    intro e he
    simp only [updateAssoc] at he
    by_cases hk : k2 = k
    · rw [if_pos hk] at he
      rcases List.mem_cons.mp he with rfl | h2
      · exact Or.inr rfl
      · exact Or.inl (List.mem_cons_of_mem _ h2)
    · rw [if_neg hk] at he
      rcases List.mem_cons.mp he with rfl | h2
      · exact Or.inl (List.mem_cons_self _ _)
      · rcases ih e h2 with h3 | h4
        · exact Or.inl (List.mem_cons_of_mem _ h3)
        · exact Or.inr h4

/-- A single line can add a top-level entry only through the GROUP END
branch, and then the key of the entry equals the stripped name on the
line; every other branch leaves the mapping untouched. -/
theorem processLine_parsed (st : ParseState) (l : String) (st2 : ParseState)
    (h : processLine st l = .ok st2) :
    ∀ e ∈ st2.parsed, e ∈ st.parsed ∨
      (pyStartsWith l "GROUP END " = true ∧ pyStrip (pyDrop l 10) = e.1) := by
  unfold processLine at h
  by_cases hb : pyStartsWith l "GROUP BEGIN " = true
  · rw [if_pos hb] at h
    unfold processGroupBegin at h
    injection h with h
    subst h
    intro e he
    exact Or.inl he
  · rw [if_neg hb] at h
    by_cases he1 : pyStartsWith l "GROUP END " = true
    · rw [if_pos he1] at h
      unfold processGroupEnd at h
      cases hpop : popLast st.stack with
      | none => rw [hpop] at h; simp at h
      | some rc =>
        obtain ⟨rest, cur⟩ := rc
        rw [hpop] at h
        simp only at h
        by_cases hname : cur.name = pyStrip (pyDrop l 10)
        · rw [if_pos hname] at h
          cases hpop2 : popLast rest with
          | none =>
            rw [hpop2] at h
            injection h with h
            subst h
            intro e he
            simp only at he
            rcases mem_updateAssoc st.parsed cur.name cur e he with h1 | h2
            · exact Or.inl h1
            · subst h2
              exact Or.inr ⟨he1, hname.symm⟩
          | some rp =>
            obtain ⟨rest2, parent⟩ := rp
            rw [hpop2] at h
            injection h with h
            subst h
            intro e he
            exact Or.inl he
        · rw [if_neg hname] at h
          simp at h
    · rw [if_neg he1] at h
      by_cases hd : pyStartsWith l "DEFAULT METADATA" = true
      · rw [if_pos hd] at h
        injection h with h
        subst h
        intro e he
        exact Or.inl he
      · rw [if_neg hd] at h
        cases hf : funMatch l with
        | none => rw [hf] at h; simp at h
        | some t =>
          obtain ⟨rt, nm, params⟩ := t
          rw [hf] at h
          simp only at h
          unfold processFunctionLine at h
          cases hrt : mkTType rt with
          | error e2 => rw [hrt] at h; simp at h
          | ok rT =>
            rw [hrt] at h
            cases hps : parse_function_parameters params with
            | error e2 => rw [hps] at h; simp at h
            | ok ps =>
              rw [hps] at h
              simp only at h
              cases hpop : popLast st.stack with
              | none => rw [hpop] at h; simp at h
              | some rc =>
                obtain ⟨rest, top⟩ := rc
                rw [hpop] at h
                injection h with h
                subst h
                intro e he
                exact Or.inl he

/-- Over a whole run of the loop, every top-level entry either was
already present or stems from a GROUP END line with its name. -/
theorem processLines_parsed :
    ∀ (ls : List String) (st st2 : ParseState),
      processLines st ls = .ok st2 →
      ∀ e ∈ st2.parsed, e ∈ st.parsed ∨
        ∃ l ∈ ls, pyStartsWith l "GROUP END " = true ∧ pyStrip (pyDrop l 10) = e.1 := by
  intro ls
  induction ls with
  | nil =>
    intro st st2 h e he
    simp only [processLines] at h
    injection h with h
    subst h
    exact Or.inl he
  | cons l ls ih =>
    intro st st2 h e he
    simp only [processLines] at h
    cases hp : processLine st l with
    | error e2 => rw [hp] at h; simp at h
    | ok stm =>
      rw [hp] at h
      rcases ih stm st2 h e he with hmem | ⟨l2, hl2, hend⟩
      · rcases processLine_parsed st l stm hp e hmem with h1 | h2
        · exact Or.inl h1
        · exact Or.inr ⟨l, by simp, h2⟩
      · exact Or.inr ⟨l2, by simp [hl2], hend⟩

/-- C10: when every line of the input processes without error, the run
returns normally even if groups are still open at the end of input — the
loop never checks the stack at end of input — and every top-level entry
of the returned mapping stems from a GROUP END line naming it, so a group
opened but never closed, with every declaration inside it, is absent from
the mapping. -/
theorem open_groups_absent (lines : List String) (st : ParseState)
    (h : processLines initParseState (preprocess lines) = .ok st) :
    get_parsed_functions lines = .ok st.parsed ∧
    ∀ e ∈ st.parsed, ∃ l ∈ preprocess lines,
      pyStartsWith l "GROUP END " = true ∧ pyStrip (pyDrop l 10) = e.1 := by
  constructor
  · unfold get_parsed_functions
    rw [h]
  · intro e he
    rcases processLines_parsed (preprocess lines) initParseState st h e he with h1 | h2
    · simp [initParseState] at h1
    · exact h2

/-- Witness for C10: on an input whose last group Bar is never closed,
parsing returns normally and the mapping holds only the closed group Foo;
Bar and the declaration inside it are absent. -/
theorem open_groups_absent_witness :
    get_parsed_functions c10Lines = Except.ok c10St.parsed :=
  (open_groups_absent c10Lines c10St (by rfl)).1
